import Mathlib

/-!
Verification of the MTConnect adapter core of `Lemoine.Cnc.MTConnectAdapter`
(`adapter.cpp` / `adapter.hpp` / `PulseAdapter.cpp`).

The adapter cycle engine (`Adapter::Start`, `Adapter::Finish`,
`Adapter::sendDatum`, `Adapter::sendBuffer`, `Adapter::sendInitialData`,
`Adapter::sendChangedData`, `Adapter::flush`, `Adapter::unavailable`,
`Adapter::addDatum`) is embedded directly from `adapter.cpp`.
The collaborating classes `DeviceDatum`, `StringBuffer`, `Server` and
`Client` are declared in headers (`device_datum.hpp`, `string_buffer.hpp`,
`server.hpp`) whose sources are not part of this repository; they are
modelled from the specification, as documented on each definition.

Buffer text is modelled as a list of abstract chunks instead of raw
characters: the timestamp chunk stands for the ISO-8601 text written by
`StringBuffer::timestamp`, a field chunk stands for the `|name|value`
field group a datum appends, and the newline chunk stands for the `"\n"`
terminator appended by `Adapter::sendBuffer`.  Timestamp formatting and
floating-point rendering are out of scope; values are carried as their
serialized text.
-/

/-- Modelled from the spec (wire format, §6, and `string_buffer.hpp` which is
not in the repository sources): one syntactic piece of buffer text.
`stamp` is the cycle timestamp written by `StringBuffer::timestamp`;
`field name value ownLine` is the field group a datum appends
(`ownLine` is a ghost annotation recording whether the appending datum
required its own line, used only to state properties);
`newline` is the line terminator appended by `Adapter::sendBuffer`. -/
inductive Chunk where
  | stamp : Chunk
  | field (name value : String) (ownLine : Bool) : Chunk
  | newline : Chunk
deriving DecidableEq, Repr

/-- Modelled from the spec (§3 Data model; `device_datum.hpp` is not in the
repository sources): a named, dirty-tracked value cell.
`hasInitialValue` is the source's `hasInitialValue()` (spec `hasValue`),
`dirty` is the source's `changed()` flag, `requiresFlush` is the source's
`requiresFlush()` (spec `requiresOwnLine`), fixed per datum.
The current value is carried as its serialized text. -/
structure DeviceDatum where
  name : String
  value : String
  hasInitialValue : Bool
  dirty : Bool
  requiresFlush : Bool
deriving DecidableEq, Repr

/-- Modelled from the spec (§3): a write sets the value, sets `hasValue` on
first write (never reset), and marks `dirty` on every write. -/
def DeviceDatum.setValue (d : DeviceDatum) (v : String) : DeviceDatum :=
  { d with value := v, hasInitialValue := true, dirty := true }

/-- Modelled from the spec (§3 `forceUnavailable`): sets the value to the
reserved `UNAVAILABLE` sentinel and marks dirty (the forced write counts
as a write). -/
def DeviceDatum.unavailable (d : DeviceDatum) : DeviceDatum :=
  d.setValue "UNAVAILABLE"

/-- Modelled from the spec (§3 `serialize`): the field group this datum
appends to the buffer (`DeviceDatum::append` writes the wire text of the
current value; the own-line flag is a ghost annotation). -/
def DeviceDatum.chunk (d : DeviceDatum) : Chunk :=
  Chunk.field d.name d.value d.requiresFlush

/-- `DeviceDatum::changed()`: the dirty flag (spec §3). -/
def DeviceDatum.changed (d : DeviceDatum) : Bool := d.dirty

/-- State of an `Adapter` (`adapter.hpp` members), together with the
observable effects of the external `Server` collaborator, which is
modelled from the spec (§6; `server.hpp` is not in the repository
sources): `hasServer` is `mServer != 0`, `numClients` is
`mServer->numClients()`, `sent` is the log of buffers transmitted by
`mServer->sendToClients`, and `disconnectedCalls` counts invocations of
the `clientsDisconnected()` hook.  `mDeviceData` is the registration-
ordered registry (its fixed 128 capacity is modelled separately below
for the registration claim; the cycle claims use the in-bounds
behavior). -/
structure AdapterState where
  mDeviceData : List DeviceDatum
  mBuffer : List Chunk
  mDisableFlush : Bool
  hasServer : Bool
  numClients : Nat
  sent : List (List Chunk)
  disconnectedCalls : Nat
deriving DecidableEq, Repr

/-- `Adapter::sendBuffer` (adapter.cpp:125-133): only if the server exists
and the buffer is non-empty, append `"\n"`, transmit to all clients, and
reset the buffer. -/
def Adapter.sendBuffer (s : AdapterState) : AdapterState :=
  if s.hasServer = true ∧ s.mBuffer ≠ [] then
    { s with sent := s.sent ++ [s.mBuffer ++ [Chunk.newline]], mBuffer := [] }
  else s

/-- `Adapter::sendDatum` (adapter.cpp:115-122): if the datum requires a
flush, send the buffer; append the datum (which serializes the current
value and clears `dirty`, spec §3/§4.1); if it requires a flush, send the
buffer again.  Returns the updated datum together with the new state. -/
def Adapter.sendDatum (d : DeviceDatum) (s : AdapterState) : DeviceDatum × AdapterState :=
  ({ d with dirty := false },
   if d.requiresFlush = true then
     Adapter.sendBuffer
       { Adapter.sendBuffer s with
           mBuffer := (Adapter.sendBuffer s).mBuffer ++ [d.chunk] }
   else
     { s with mBuffer := s.mBuffer ++ [d.chunk] })

/-- The `for (int i = 0; i < mNumDeviceData; i++) if (sel) sendDatum` loops
of `Adapter::sendChangedData` and `Adapter::sendInitialData`, rendered
functionally: datums satisfying `sel` are sent in registration order and
their updated cells returned in place. -/
def processDatums (sel : DeviceDatum → Bool) :
    List DeviceDatum → AdapterState → List DeviceDatum × AdapterState
  | [], s => ([], s)
  | d :: rest, s =>
    if sel d = true then
      ((Adapter.sendDatum d s).1 ::
         (processDatums sel rest (Adapter.sendDatum d s).2).1,
       (processDatums sel rest (Adapter.sendDatum d s).2).2)
    else
      (d :: (processDatums sel rest s).1, (processDatums sel rest s).2)

/-- `Adapter::sendChangedData` (adapter.cpp:152-161): send every datum with
`changed()` true, in registration order, then send the buffer. -/
def Adapter.sendChangedData (s : AdapterState) : AdapterState :=
  Adapter.sendBuffer
    { (processDatums (fun d => d.changed) s.mDeviceData s).2 with
        mDeviceData := (processDatums (fun d => d.changed) s.mDeviceData s).1 }

/-- `Adapter::sendInitialData` (adapter.cpp:136-149): set `mDisableFlush`,
stamp the timestamp, send every datum with `hasInitialValue()` true in
registration order, send the buffer, clear `mDisableFlush`. -/
def Adapter.sendInitialData (s : AdapterState) : AdapterState :=
  { Adapter.sendBuffer
      { (processDatums (fun d => d.hasInitialValue) s.mDeviceData
           { s with mDisableFlush := true, mBuffer := s.mBuffer ++ [Chunk.stamp] }).2 with
          mDeviceData :=
            (processDatums (fun d => d.hasInitialValue) s.mDeviceData
               { s with mDisableFlush := true, mBuffer := s.mBuffer ++ [Chunk.stamp] }).1 }
    with mDisableFlush := false }

/-- `Adapter::flush` (adapter.cpp:163-171): unless `mDisableFlush` is set,
send the changed data, reset the buffer and stamp a fresh timestamp. -/
def Adapter.flush (s : AdapterState) : AdapterState :=
  if s.mDisableFlush = true then s
  else { Adapter.sendChangedData s with mBuffer := [Chunk.stamp] }

/-- `Adapter::unavailable` (adapter.cpp:179-187): mark every registered
datum unavailable, then `flush()`. -/
def Adapter.unavailable (s : AdapterState) : AdapterState :=
  Adapter.flush { s with mDeviceData := s.mDeviceData.map DeviceDatum.unavailable }

/-- `Adapter::Finish` (adapter.cpp:106-112): if at least one client is
connected, send the changed data and reset the buffer; otherwise do
nothing. -/
def Adapter.Finish (s : AdapterState) : AdapterState :=
  if 0 < s.numClients then
    { Adapter.sendChangedData s with mBuffer := [] }
  else s

/-- `Adapter::addDatum` (adapter.cpp:65-69), in-bounds behavior: append to
the registration-ordered registry (the 128-slot capacity of the backing
managed array is modelled separately below). -/
def Adapter.addDatum (s : AdapterState) (d : DeviceDatum) : AdapterState :=
  { s with mDeviceData := s.mDeviceData ++ [d] }

/-- Environment of one `Adapter::Start` call: `newClients` is the number of
newly accepted clients returned by `mServer->connectToClients()` (zero
models the null return), and `clientsAfterRead` is what
`mServer->numClients()` reports after `mServer->readFromClients()`.
Both are inputs from the external server collaborator (spec §6). -/
structure StartEnv where
  newClients : Nat
  clientsAfterRead : Nat
deriving DecidableEq, Repr

/-- The `for (int i = 0; clients[i] != 0; i++) sendInitialData(clients[i])`
loop of `Adapter::Start`: one full sync per newly accepted client. -/
def iterInitial : Nat → AdapterState → AdapterState
  | 0, s => s
  | n + 1, s => iterInitial n (Adapter.sendInitialData s)

/-- `Adapter::Start` (adapter.cpp:71-104): ensure the server exists, run a
full sync for each newly accepted client (the local `hasClients` records
only whether `connectToClients` returned new clients), read from clients,
then: if any client is connected stamp the timestamp, else if new clients
had been accepted this call invoke `clientsDisconnected()`. -/
def Adapter.Start (env : StartEnv) (s : AdapterState) : AdapterState :=
  if 0 < env.clientsAfterRead then
    { iterInitial env.newClients { s with hasServer := true } with
        numClients := env.clientsAfterRead,
        mBuffer :=
          (iterInitial env.newClients { s with hasServer := true }).mBuffer ++ [Chunk.stamp] }
  else if 0 < env.newClients then
    { iterInitial env.newClients { s with hasServer := true } with
        numClients := env.clientsAfterRead,
        disconnectedCalls :=
          (iterInitial env.newClients { s with hasServer := true }).disconnectedCalls + 1 }
  else
    { iterInitial env.newClients { s with hasServer := true } with
        numClients := env.clientsAfterRead }

/-- Whether a chunk is a datum field group (as opposed to the timestamp or
the line terminator). -/
def isField : Chunk → Bool
  | Chunk.field _ _ _ => true
  | _ => false

/-- Whether a chunk is the field group of a datum that required its own
line. -/
def isOwnField : Chunk → Bool
  | Chunk.field _ _ own => own
  | _ => false

/-- The datum field groups of a buffer or message, in order. -/
def fieldChunks (m : List Chunk) : List Chunk := m.filter isField

/-- A buffer holding no field group of an own-line datum. -/
def noOwn (m : List Chunk) : Prop := ∀ c ∈ m, isOwnField c = false

/-- What one adapter operation emits: going from state `s` to state `t` it
appended the messages `M` to the transmission log, and the datum field
groups it pushed into the buffer/log are exactly `extra` (in order).
`lines` records the framing of every emitted message, `own` the own-line
exclusivity invariant, and the last two fields that the operation touches
neither the server presence nor the client count. -/
structure Emits (s t : AdapterState) (M : List (List Chunk)) (extra : List Chunk) : Prop where
  sent_eq : t.sent = s.sent ++ M
  content : fieldChunks M.flatten ++ fieldChunks t.mBuffer = fieldChunks s.mBuffer ++ extra
  lines : ∀ m ∈ M, m ≠ [] ∧ m.getLast? = some Chunk.newline
  own : s.hasServer = true → noOwn s.mBuffer →
      noOwn t.mBuffer ∧ ∀ m ∈ M, ∀ c ∈ m, isOwnField c = true → fieldChunks m = [c]
  hasServer_eq : t.hasServer = s.hasServer
  numClients_eq : t.numClients = s.numClients

/-- The messages a step from state `s` to state `t` appended to the
transmission log. -/
def newSent (s t : AdapterState) : List (List Chunk) := t.sent.drop s.sent.length

/-!
### PulseAdapter (`PulseAdapter.cpp` / `PulseAdapter.h`)

The producer-facing setters.  Each managed member pointer
(`availability`, `x`, `y`, …) is modelled as an optional index into the
adapter registry (`handles`); the source's lazy `if (NULL == x) { x =
new Sample("Xact"); addDatum(*x); }` pattern becomes a get-or-create on
that handle.  Numeric values (`double`, `long`) are carried as their
serialized text, since no claim depends on numeric semantics.
-/

/-- The monitored channels of `PulseAdapter` (one per member pointer of
`PulseAdapter.h`). -/
inductive Channel where
  | avail | x | y | z | u | v | w | a | b | c
  | feedrate | spindleLoad | spindleSpeed | feedrateOverride | spindleSpeedOverride
  | mode | execution | program
deriving DecidableEq, Repr

/-- Modelled from the spec (§3 lifecycle): a freshly constructed datum has
no value yet and is clean; none of the variants used by `PulseAdapter`
(`Sample`, `Event`, `Availability`, `Execution`, `ControllerMode`)
requires its own line (spec §6: only condition/alarm-like items do). -/
def mkDatum (nm : String) : DeviceDatum :=
  { name := nm, value := "", hasInitialValue := false, dirty := false, requiresFlush := false }

/-- State of a `PulseAdapter`: the inherited `Adapter` state plus the lazily
created member datums, as indices into the registry. -/
structure PulseState where
  adapter : AdapterState
  handles : Channel → Option Nat

/-- In-place update of the `i`-th element of a list (the effect of mutating
a datum through its member pointer). -/
def listModify (f : DeviceDatum → DeviceDatum) : Nat → List DeviceDatum → List DeviceDatum
  | _, [] => []
  | 0, d :: rest => f d :: rest
  | n + 1, d :: rest => d :: listModify f n rest

/-- Apply `f` to the datum the handle `i` points at. -/
def PulseState.updateDatum (ps : PulseState) (i : Nat) (f : DeviceDatum → DeviceDatum) :
    PulseState :=
  { ps with adapter :=
      { ps.adapter with mDeviceData := listModify f i ps.adapter.mDeviceData } }

/-- The `if (NULL == member) { member = new Variant(name); addDatum(*member); }`
pattern of every `PulseAdapter` setter: return the handle, creating and
registering the datum on first use. -/
def PulseState.getOrCreate (ps : PulseState) (ch : Channel) (nm : String) :
    PulseState × Nat :=
  match ps.handles ch with
  | some i => (ps, i)
  | none =>
    ({ adapter := Adapter.addDatum ps.adapter (mkDatum nm),
       handles := fun ch2 => if ch2 = ch then some ps.adapter.mDeviceData.length else ps.handles ch2 },
     ps.adapter.mDeviceData.length)

/-- `PulseAdapter::Available::set` (PulseAdapter.cpp:133-145): get or create
the `avail` datum, then set it to `AVAILABLE` or `UNAVAILABLE`
(`Availability::available` / `Availability::unavailable`, modelled from
the spec §3/§4.3 as writes of the two labels). -/
def PulseAdapter.Available.set (ps : PulseState) (value : Bool) : PulseState :=
  ((ps.getOrCreate Channel.avail "avail").1).updateDatum (ps.getOrCreate Channel.avail "avail").2
    (fun d => d.setValue (if value then "AVAILABLE" else "UNAVAILABLE"))

/-- The shared shape of every monitored-channel setter of `PulseAdapter.cpp`:
get or create the channel's datum, write the (serialized) value, then
assert `Available = true`. -/
def writeChannel (ps : PulseState) (ch : Channel) (nm : String) (value : String) : PulseState :=
  PulseAdapter.Available.set
    (((ps.getOrCreate ch nm).1).updateDatum (ps.getOrCreate ch nm).2 (fun d => d.setValue value))
    true

/-- `PulseAdapter::X::set` (PulseAdapter.cpp:186-194). -/
def PulseAdapter.X.set (ps : PulseState) (value : String) : PulseState :=
  writeChannel ps Channel.x "Xact" value

/-- `PulseAdapter::Y::set` (PulseAdapter.cpp:196-204). -/
def PulseAdapter.Y.set (ps : PulseState) (value : String) : PulseState :=
  writeChannel ps Channel.y "Yact" value

/-- `PulseAdapter::Z::set` (PulseAdapter.cpp:206-214). -/
def PulseAdapter.Z.set (ps : PulseState) (value : String) : PulseState :=
  writeChannel ps Channel.z "Zact" value

/-- `PulseAdapter::U::set` (PulseAdapter.cpp:216-224). -/
def PulseAdapter.U.set (ps : PulseState) (value : String) : PulseState :=
  writeChannel ps Channel.u "Uact" value

/-- `PulseAdapter::V::set` (PulseAdapter.cpp:226-234). -/
def PulseAdapter.V.set (ps : PulseState) (value : String) : PulseState :=
  writeChannel ps Channel.v "Vact" value

/-- `PulseAdapter::W::set` (PulseAdapter.cpp:236-244). -/
def PulseAdapter.W.set (ps : PulseState) (value : String) : PulseState :=
  writeChannel ps Channel.w "Wact" value

/-- `PulseAdapter::A::set` (PulseAdapter.cpp:246-254). -/
def PulseAdapter.A.set (ps : PulseState) (value : String) : PulseState :=
  writeChannel ps Channel.a "Apos" value

/-- `PulseAdapter::B::set` (PulseAdapter.cpp:256-264). -/
def PulseAdapter.B.set (ps : PulseState) (value : String) : PulseState :=
  writeChannel ps Channel.b "Bpos" value

/-- `PulseAdapter::C::set` (PulseAdapter.cpp:266-274). -/
def PulseAdapter.C.set (ps : PulseState) (value : String) : PulseState :=
  writeChannel ps Channel.c "Cpos" value

/-- `PulseAdapter::Feedrate::set` (PulseAdapter.cpp:276-284). -/
def PulseAdapter.Feedrate.set (ps : PulseState) (value : String) : PulseState :=
  writeChannel ps Channel.feedrate "path_feedrate" value

/-- `PulseAdapter::SpindleLoad::set` (PulseAdapter.cpp:286-294). -/
def PulseAdapter.SpindleLoad.set (ps : PulseState) (value : String) : PulseState :=
  writeChannel ps Channel.spindleLoad "spindle_load" value

/-- `PulseAdapter::SpindleSpeed::set` (PulseAdapter.cpp:296-304). -/
def PulseAdapter.SpindleSpeed.set (ps : PulseState) (value : String) : PulseState :=
  writeChannel ps Channel.spindleSpeed "spindle_speed" value

/-- `PulseAdapter::Manual::set` (PulseAdapter.cpp:306-319): maps the boolean
to the `MANUAL`/`AUTOMATIC` mode labels (`ControllerMode::setValue`). -/
def PulseAdapter.Manual.set (ps : PulseState) (value : Bool) : PulseState :=
  writeChannel ps Channel.mode "mode" (if value then "MANUAL" else "AUTOMATIC")

/-- `PulseAdapter::FeedrateOverride::set` (PulseAdapter.cpp:321-329). -/
def PulseAdapter.FeedrateOverride.set (ps : PulseState) (value : String) : PulseState :=
  writeChannel ps Channel.feedrateOverride "feed_ovr" value

/-- `PulseAdapter::SpindleSpeedOverride::set` (PulseAdapter.cpp:331-339). -/
def PulseAdapter.SpindleSpeedOverride.set (ps : PulseState) (value : String) : PulseState :=
  writeChannel ps Channel.spindleSpeedOverride "SspeedOvr" value

/-- `PulseAdapter::Running::set` (PulseAdapter.cpp:341-354): maps the boolean
to the `ACTIVE`/`INTERRUPTED` execution labels. -/
def PulseAdapter.Running.set (ps : PulseState) (value : Bool) : PulseState :=
  writeChannel ps Channel.execution "execution" (if value then "ACTIVE" else "INTERRUPTED")

/-- `PulseAdapter::ProgramName::set` (PulseAdapter.cpp:356-365). -/
def PulseAdapter.ProgramName.set (ps : PulseState) (value : String) : PulseState :=
  writeChannel ps Channel.program "program" value

/-- `PulseAdapter::Error::set` (PulseAdapter.cpp:159-164): on error, run the
adapter-wide `unavailable()`. -/
def PulseAdapter.Error.set (ps : PulseState) (value : Bool) : PulseState :=
  if value then { ps with adapter := Adapter.unavailable ps.adapter } else ps

/-- Well-formedness of the availability handle: if it is set, it points into
the registry at the `avail` datum (true of every state reachable through
the setters, since `avail` is created exactly once and setters preserve
names). -/
def availOk (ps : PulseState) : Prop :=
  ∀ i, ps.handles Channel.avail = some i →
    ∃ d, ps.adapter.mDeviceData[i]? = some d ∧ d.name = "avail"

/-- The availability datum exists, is registered, and currently reads
`AVAILABLE` with a value present. -/
def availSetOk (ps : PulseState) : Prop :=
  ∃ i d, ps.handles Channel.avail = some i ∧
    ps.adapter.mDeviceData[i]? = some d ∧
    d.name = "avail" ∧ d.value = "AVAILABLE" ∧ d.hasInitialValue = true

/-!
### The fixed-capacity registry (`Adapter::Adapter`, `Adapter::addDatum`)

`mDeviceData` is `gcnew array<DeviceDatum*>(128)` (adapter.cpp:51), a
bounds-checked managed array: writing past index 127 raises
`System::IndexOutOfRangeException`.  `Adapter::addDatum` performs
`mDeviceData[mNumDeviceData++] = &aValue; mDeviceData[mNumDeviceData] = 0;`
with no explicit capacity check (adapter.cpp:65-69).  This is modelled
step by step, recording the partially mutated state together with the
exception, to settle the capacity claim.
-/

/-- The `mNumDeviceData` counter and the 128-slot managed array (`some d` a
stored datum pointer, `none` the null terminator / unused slot). -/
structure CliRegistry where
  slots : Array (Option DeviceDatum)
  num : Nat
deriving Repr

/-- The registry as built by `Adapter::Adapter` (adapter.cpp:44-54). -/
def initRegistry : CliRegistry :=
  { slots := Array.mkArray 128 none, num := 0 }

/-- `Adapter::addDatum` over the managed array, with .NET bounds-check
semantics: each indexed store either succeeds or raises
`IndexOutOfRangeException`, aborting the method and leaving the earlier
stores and the `mNumDeviceData++` increment in place.  Returns the state
reached together with the exception, if one was raised. -/
def addDatumCli (st : CliRegistry) (d : DeviceDatum) : CliRegistry × Option String :=
  if h : st.num < st.slots.size then
    let slots1 := st.slots.set ⟨st.num, h⟩ (some d)
    if h2 : st.num + 1 < slots1.size then
      (⟨slots1.set ⟨st.num + 1, h2⟩ none, st.num + 1⟩, none)
    else
      (⟨slots1, st.num + 1⟩, some "IndexOutOfRangeException")
  else (st, some "IndexOutOfRangeException")

/-- Register `n` datums in a row, stopping at the first exception (which
propagates out of `addDatum`). -/
def registerN : Nat → CliRegistry → CliRegistry × Option String
  | 0, st => (st, none)
  | n + 1, st =>
    match addDatumCli st (mkDatum "d") with
    | (st1, some err) => (st1, some err)
    | (st1, none) => registerN n st1

/-!
### Concrete states for counterexamples and witnesses
-/

/-- An ordinary datum carrying a value. -/
def datumA : DeviceDatum :=
  { name := "a", value := "1", hasInitialValue := true, dirty := true, requiresFlush := false }

/-- A datum that requires its own line, carrying a value. -/
def datumB : DeviceDatum :=
  { name := "b", value := "2", hasInitialValue := true, dirty := true, requiresFlush := true }

/-- Counterexample state for the full-sync claim: two datums with a value,
the second requiring its own line; server up, one client, empty buffer. -/
def c1state : AdapterState :=
  { mDeviceData := [datumA, datumB], mBuffer := [], mDisableFlush := false,
    hasServer := true, numClients := 1, sent := [], disconnectedCalls := 0 }

/-- Counterexample state for the message-framing claim: one ordinary dirty
datum followed by an own-line dirty datum, cycle buffer stamped. -/
def c4state : AdapterState :=
  { mDeviceData := [datumA, datumB], mBuffer := [Chunk.stamp], mDisableFlush := false,
    hasServer := true, numClients := 1, sent := [], disconnectedCalls := 0 }

/-- Failing input for the disconnect-hook claim: one client was connected
at the end of the previous cycle. -/
def c5state : AdapterState :=
  { mDeviceData := [], mBuffer := [], mDisableFlush := false,
    hasServer := true, numClients := 1, sent := [], disconnectedCalls := 0 }

/-- Environment of the cycle in which the last client disconnects: no new
client is accepted and the read leaves zero clients connected. -/
def c5env : StartEnv := { newClients := 0, clientsAfterRead := 0 }

/-- Witness state: one ordinary dirty datum, stamped buffer, one client. -/
def wState : AdapterState :=
  { mDeviceData := [datumA], mBuffer := [Chunk.stamp], mDisableFlush := false,
    hasServer := true, numClients := 1, sent := [], disconnectedCalls := 0 }

/-- Witness state with an own-line datum and an empty buffer. -/
def wState3 : AdapterState :=
  { mDeviceData := [datumA, datumB], mBuffer := [], mDisableFlush := false,
    hasServer := true, numClients := 1, sent := [], disconnectedCalls := 0 }

/-- Witness state with one ordinary datum and an empty buffer. -/
def wBatch : AdapterState :=
  { mDeviceData := [datumA], mBuffer := [], mDisableFlush := false,
    hasServer := true, numClients := 1, sent := [], disconnectedCalls := 0 }

/-- Witness state with no dirty datum and an empty buffer. -/
def wClean : AdapterState :=
  { mDeviceData := [{ datumA with dirty := false }], mBuffer := [], mDisableFlush := false,
    hasServer := true, numClients := 1, sent := [], disconnectedCalls := 0 }

/-- Witness environment: no new client, one client connected after read. -/
def wEnv : StartEnv := { newClients := 0, clientsAfterRead := 1 }

/-- Witness environment with exactly one newly accepted client. -/
def wEnv1 : StartEnv := { newClients := 1, clientsAfterRead := 1 }

/-- Witness `PulseAdapter` state: fresh adapter, no datum created yet. -/
def wPulse : PulseState :=
  { adapter :=
      { mDeviceData := [], mBuffer := [], mDisableFlush := false,
        hasServer := false, numClients := 0, sent := [], disconnectedCalls := 0 },
    handles := fun _ => none }

/-!
### Helper lemmas
-/

theorem fieldChunks_append (l1 l2 : List Chunk) :
    fieldChunks (l1 ++ l2) = fieldChunks l1 ++ fieldChunks l2 := by
  simp [fieldChunks, List.filter_append]

theorem fieldChunks_chunk (d : DeviceDatum) : fieldChunks [d.chunk] = [d.chunk] := by
  simp [fieldChunks, DeviceDatum.chunk, isField]

theorem fieldChunks_newline : fieldChunks [Chunk.newline] = [] := by
  simp [fieldChunks, isField]

theorem fieldChunks_stamp : fieldChunks [Chunk.stamp] = [] := by
  simp [fieldChunks, isField]

theorem Emits.rfl (s : AdapterState) : Emits s s [] [] := by
  constructor
  · simp
  · simp [fieldChunks]
  · simp
  · exact fun _ h => ⟨h, by simp⟩
  · rfl
  · rfl

theorem Emits.trans {s t u : AdapterState} {M N : List (List Chunk)}
    {e1 e2 : List Chunk} (h1 : Emits s t M e1) (h2 : Emits t u N e2) :
    Emits s u (M ++ N) (e1 ++ e2) := by
  constructor
  · rw [h2.sent_eq, h1.sent_eq, List.append_assoc]
  · rw [List.flatten_append, fieldChunks_append, List.append_assoc, h2.content,
      ← List.append_assoc, h1.content, List.append_assoc]
  · intro m hm
    rcases List.mem_append.mp hm with h | h
    · exact h1.lines m h
    · exact h2.lines m h
  · intro hs hb
    obtain ⟨hb1, hm1⟩ := h1.own hs hb
    obtain ⟨hb2, hm2⟩ := h2.own (h1.hasServer_eq.trans hs) hb1
    refine ⟨hb2, fun m hm => ?_⟩
    rcases List.mem_append.mp hm with h | h
    · exact hm1 m h
    · exact hm2 m h
  · exact h2.hasServer_eq.trans h1.hasServer_eq
  · exact h2.numClients_eq.trans h1.numClients_eq

/-- Replacing the registry list does not change what was emitted. -/
theorem Emits.setDevices {s t : AdapterState} {M : List (List Chunk)} {e : List Chunk}
    (h : Emits s t M e) (ds : List DeviceDatum) :
    Emits s { t with mDeviceData := ds } M e := by
  constructor
  · exact h.sent_eq
  · exact h.content
  · exact h.lines
  · exact h.own
  · exact h.hasServer_eq
  · exact h.numClients_eq

/-- A step that only appends non-field or non-own chunks is covered case by
case below; `sendBuffer` either does nothing or moves the whole buffer,
newline-terminated, into the log. -/
theorem sendBuffer_emits (s : AdapterState) :
    ∃ M, Emits s (Adapter.sendBuffer s) M [] := by
  unfold Adapter.sendBuffer
  split
  · rename_i hcond
    refine ⟨[s.mBuffer ++ [Chunk.newline]], ?_⟩
    constructor
    · rfl
    · simp [fieldChunks_append, fieldChunks_newline, fieldChunks, isField]
    · intro m hm
      simp only [List.mem_singleton] at hm
      subst hm
      constructor
      · simp
      · simp
    · intro _ hb
      refine ⟨by simp [noOwn], ?_⟩
      intro m hm c hc hown
      simp only [List.mem_singleton] at hm
      subst hm
      rcases List.mem_append.mp hc with h | h
      · exact absurd hown (by simp [hb c h])
      · simp only [List.mem_singleton] at h
        subst h
        exact absurd hown (by simp [isOwnField])
    · rfl
    · rfl
  · exact ⟨[], Emits.rfl s⟩

theorem sendBuffer_of_not {s : AdapterState}
    (h : ¬ (s.hasServer = true ∧ s.mBuffer ≠ [])) : Adapter.sendBuffer s = s := by
  unfold Adapter.sendBuffer
  simp [h]

/-- With a live server the buffer is always empty after `sendBuffer`. -/
theorem sendBuffer_empty {s : AdapterState} (hs : s.hasServer = true) :
    (Adapter.sendBuffer s).mBuffer = [] := by
  unfold Adapter.sendBuffer
  split
  · rfl
  · rename_i h
    rcases not_and_or.mp h with h | h
    · exact absurd hs h
    · exact not_not.mp h

theorem sendBuffer_fire {s : AdapterState} (h : s.hasServer = true ∧ s.mBuffer ≠ []) :
    Adapter.sendBuffer s
      = { s with sent := s.sent ++ [s.mBuffer ++ [Chunk.newline]], mBuffer := [] } := by
  unfold Adapter.sendBuffer
  rw [if_pos h]

theorem sendBuffer_fire2 (s : AdapterState) (hs : s.hasServer = true) (hb : s.mBuffer ≠ []) :
    Adapter.sendBuffer s
      = { s with sent := s.sent ++ [s.mBuffer ++ [Chunk.newline]], mBuffer := [] } :=
  sendBuffer_fire ⟨hs, hb⟩

/-- Appending one field group to the buffer emits nothing and pushes that
group. -/
theorem append_chunk_emits (d : DeviceDatum) (s : AdapterState)
    (hok : s.hasServer = true → isOwnField d.chunk = false) :
    Emits s { s with mBuffer := s.mBuffer ++ [d.chunk] } [] [d.chunk] := by
  constructor
  · simp
  · simp [fieldChunks_append, fieldChunks_chunk, fieldChunks, isField, DeviceDatum.chunk]
  · simp
  · intro hs hb
    refine ⟨?_, by simp⟩
    intro c hc
    rcases List.mem_append.mp hc with h | h
    · exact hb c h
    · simp only [List.mem_singleton] at h
      subst h
      exact hok hs
  · rfl
  · rfl

theorem sendBuffer_mDeviceData (s : AdapterState) :
    (Adapter.sendBuffer s).mDeviceData = s.mDeviceData := by
  unfold Adapter.sendBuffer
  split <;> rfl

/-- `sendDatum` clears the dirty flag and emits exactly the datum's field
group (possibly flushing around it). -/
theorem sendDatum_emits (d : DeviceDatum) (s : AdapterState) :
    (Adapter.sendDatum d s).1 = { d with dirty := false } ∧
    ∃ M, Emits s (Adapter.sendDatum d s).2 M [d.chunk] := by
  refine ⟨rfl, ?_⟩
  unfold Adapter.sendDatum
  by_cases hreq : d.requiresFlush = true
  · simp only [hreq, if_true]
    by_cases hsv : s.hasServer = true
    · obtain ⟨M1, h1⟩ := sendBuffer_emits s
      have hbuf1 : (Adapter.sendBuffer s).mBuffer = [] := sendBuffer_empty hsv
      have hsv1 : (Adapter.sendBuffer s).hasServer = true := h1.hasServer_eq.trans hsv
      set s2 : AdapterState :=
        { Adapter.sendBuffer s with mBuffer := (Adapter.sendBuffer s).mBuffer ++ [d.chunk] }
        with hs2def
      have hbuf2 : s2.mBuffer = [d.chunk] := by
        show (Adapter.sendBuffer s).mBuffer ++ [d.chunk] = [d.chunk]
        rw [hbuf1]
        rfl
      have hcond : s2.hasServer = true ∧ s2.mBuffer ≠ [] :=
        ⟨hsv1, by rw [hbuf2]; simp⟩
      have hfire := sendBuffer_fire hcond
      refine ⟨M1 ++ [[d.chunk, Chunk.newline]], ?_⟩
      have hM1 : fieldChunks M1.flatten = fieldChunks s.mBuffer := by
        have hc := h1.content
        rw [hbuf1] at hc
        simpa [fieldChunks] using hc
      constructor
      · rw [hfire]
        show s2.sent ++ [s2.mBuffer ++ [Chunk.newline]] = _
        have hsent2 : s2.sent = s.sent ++ M1 := h1.sent_eq
        rw [hsent2, hbuf2, List.append_assoc]
        simp
      · rw [hfire]
        show fieldChunks (M1 ++ [[d.chunk, Chunk.newline]]).flatten
            ++ fieldChunks ([] : List Chunk) = fieldChunks s.mBuffer ++ [d.chunk]
        rw [List.flatten_append, fieldChunks_append, hM1]
        simp [fieldChunks, isField, DeviceDatum.chunk]
      · intro m hm
        rcases List.mem_append.mp hm with h | h
        · exact h1.lines m h
        · simp only [List.mem_singleton] at h
          subst h
          exact ⟨by simp, by simp⟩
      · intro hs hb
        obtain ⟨_, hm1⟩ := h1.own hs hb
        constructor
        · rw [hfire]
          intro c hc
          simp at hc
        · intro m hm c hc hown
          rcases List.mem_append.mp hm with h | h
          · exact hm1 m h c hc hown
          · simp only [List.mem_singleton] at h
            subst h
            rcases List.mem_cons.mp hc with h | h
            · subst h
              simp [fieldChunks, isField, DeviceDatum.chunk]
            · simp only [List.mem_singleton] at h
              subst h
              exact absurd hown (by simp [isOwnField])
      · rw [hfire]
        show s2.hasServer = s.hasServer
        exact h1.hasServer_eq
      · rw [hfire]
        show s2.numClients = s.numClients
        exact h1.numClients_eq
    · have hno : ¬(s.hasServer = true ∧ s.mBuffer ≠ []) := fun h => hsv h.1
      rw [sendBuffer_of_not hno]
      have hno2 : ¬(AdapterState.hasServer { s with mBuffer := s.mBuffer ++ [d.chunk] } = true
          ∧ AdapterState.mBuffer { s with mBuffer := s.mBuffer ++ [d.chunk] } ≠ []) :=
        fun h => hsv h.1
      rw [sendBuffer_of_not hno2]
      exact ⟨[], append_chunk_emits d s (fun hs => absurd hs hsv)⟩
  · simp only [hreq, if_false]
    have hreq' : d.requiresFlush = false := by
      cases h : d.requiresFlush
      · rfl
      · exact absurd h hreq
    refine ⟨[], append_chunk_emits d s (fun _ => ?_)⟩
    show isOwnField (Chunk.field d.name d.value d.requiresFlush) = false
    rw [hreq']
    rfl

/-- The send loop clears exactly the selected dirty flags (in place, in
registration order) and emits exactly the selected datums' field groups. -/
theorem processDatums_emits (sel : DeviceDatum → Bool) (ds : List DeviceDatum)
    (s : AdapterState) :
    (processDatums sel ds s).1
        = ds.map (fun d => if sel d = true then { d with dirty := false } else d) ∧
    ∃ M, Emits s (processDatums sel ds s).2 M ((ds.filter sel).map DeviceDatum.chunk) := by
  induction ds generalizing s with
  | nil => exact ⟨rfl, [], Emits.rfl s⟩
  | cons d rest ih =>
    cases hsel : sel d with
    | true =>
      obtain ⟨hd1, M1, h1⟩ := sendDatum_emits d s
      obtain ⟨hrest, M2, h2⟩ := ih (Adapter.sendDatum d s).2
      refine ⟨?_, ⟨M1 ++ M2, ?_⟩⟩
      · simp [processDatums, hsel, hd1, hrest]
      · have heq : (processDatums sel (d :: rest) s).2
            = (processDatums sel rest (Adapter.sendDatum d s).2).2 := by
          simp [processDatums, hsel]
        have hfil : ((d :: rest).filter sel).map DeviceDatum.chunk
            = [d.chunk] ++ (rest.filter sel).map DeviceDatum.chunk := by
          simp [List.filter_cons, hsel]
        rw [heq, hfil]
        exact Emits.trans h1 h2
    | false =>
      obtain ⟨hrest, M2, h2⟩ := ih s
      refine ⟨?_, ⟨M2, ?_⟩⟩
      · simp [processDatums, hsel, hrest]
      · have heq : (processDatums sel (d :: rest) s).2 = (processDatums sel rest s).2 := by
          simp [processDatums, hsel]
        have hfil : ((d :: rest).filter sel).map DeviceDatum.chunk
            = (rest.filter sel).map DeviceDatum.chunk := by
          simp [List.filter_cons, hsel]
        rw [heq, hfil]
        exact h2

/-- When no selected datum requires its own line, the send loop is pure
batching: nothing is flushed, the field groups pile up in the buffer. -/
theorem processDatums_no_own (sel : DeviceDatum → Bool) (ds : List DeviceDatum)
    (s : AdapterState) (h : ∀ d ∈ ds, sel d = true → d.requiresFlush = false) :
    processDatums sel ds s
      = (ds.map fun d => if sel d = true then { d with dirty := false } else d,
         { s with mBuffer := s.mBuffer ++ (ds.filter sel).map DeviceDatum.chunk }) := by
  induction ds generalizing s with
  | nil => simp [processDatums]
  | cons d rest ih =>
    cases hsel : sel d with
    | true =>
      have hreq : d.requiresFlush = false := h d (by simp) hsel
      have hsd : Adapter.sendDatum d s
          = ({ d with dirty := false }, { s with mBuffer := s.mBuffer ++ [d.chunk] }) := by
        unfold Adapter.sendDatum
        rw [hreq]
        simp
      have hrest := ih { s with mBuffer := s.mBuffer ++ [d.chunk] }
        (fun d2 hd2 => h d2 (by simp [hd2]))
      simp [processDatums, hsel, hsd, hrest, List.filter_cons, List.append_assoc]
    | false =>
      have hrest := ih s (fun d2 hd2 => h d2 (by simp [hd2]))
      simp [processDatums, hsel, hrest, List.filter_cons]

/-- `sendChangedData` clears exactly the dirty flags and emits exactly the
dirty datums' field groups in registration order; with a live server the
buffer ends empty. -/
theorem sendChangedData_spec (s : AdapterState) :
    (Adapter.sendChangedData s).mDeviceData
        = s.mDeviceData.map (fun d => if d.dirty = true then { d with dirty := false } else d) ∧
    (∃ M, Emits s (Adapter.sendChangedData s) M
        ((s.mDeviceData.filter fun d => d.dirty).map DeviceDatum.chunk)) ∧
    (s.hasServer = true → (Adapter.sendChangedData s).mBuffer = []) := by
  obtain ⟨h1, M, h2⟩ := processDatums_emits (fun d => d.changed) s.mDeviceData s
  have hsel : (fun d : DeviceDatum => d.changed) = (fun d : DeviceDatum => d.dirty) := rfl
  unfold Adapter.sendChangedData
  obtain ⟨M2, h3⟩ := sendBuffer_emits
    { (processDatums (fun d => d.changed) s.mDeviceData s).2 with
        mDeviceData := (processDatums (fun d => d.changed) s.mDeviceData s).1 }
  refine ⟨?_, ⟨M ++ M2, ?_⟩, ?_⟩
  · rw [sendBuffer_mDeviceData]
    show (processDatums (fun d => d.changed) s.mDeviceData s).1 = _
    rw [h1]
    rfl
  · have h2' : Emits s
        { (processDatums (fun d => d.changed) s.mDeviceData s).2 with
            mDeviceData := (processDatums (fun d => d.changed) s.mDeviceData s).1 }
        M ((s.mDeviceData.filter fun d => d.dirty).map DeviceDatum.chunk) :=
      Emits.setDevices (by exact h2) _
    have := Emits.trans h2' h3
    simpa using this
  · intro hs
    apply sendBuffer_empty
    show (processDatums (fun d => d.changed) s.mDeviceData s).2.hasServer = true
    obtain ⟨_, M', hM'⟩ := processDatums_emits (fun d => d.changed) s.mDeviceData s
    rw [hM'.hasServer_eq]
    exact hs

/-- Clearing the disable-flush flag does not change what was emitted. -/
theorem Emits.setDisable {s t : AdapterState} {M : List (List Chunk)} {e : List Chunk}
    (h : Emits s t M e) (b : Bool) :
    Emits s { t with mDisableFlush := b } M e := by
  constructor
  · exact h.sent_eq
  · exact h.content
  · exact h.lines
  · exact h.own
  · exact h.hasServer_eq
  · exact h.numClients_eq

/-- Stamping the timestamp into the buffer (with the disable-flush flag set)
emits nothing and pushes no field group. -/
theorem stamp_emits (s : AdapterState) :
    Emits s { s with mDisableFlush := true, mBuffer := s.mBuffer ++ [Chunk.stamp] } [] [] := by
  constructor
  · simp
  · simp [fieldChunks_append, fieldChunks_stamp, fieldChunks, isField]
  · simp
  · intro _ hb
    refine ⟨?_, by simp⟩
    intro c hc
    rcases List.mem_append.mp hc with h | h
    · exact hb c h
    · simp only [List.mem_singleton] at h
      subst h
      rfl
  · rfl
  · rfl

/-- `sendInitialData` emits exactly the field groups of the datums with a
value (`hasInitialValue`), regardless of dirty state, in registration
order. -/
theorem sendInitialData_emits (s : AdapterState) :
    ∃ M, Emits s (Adapter.sendInitialData s) M
      ((s.mDeviceData.filter fun d => d.hasInitialValue).map DeviceDatum.chunk) := by
  have h0 := stamp_emits s
  obtain ⟨hfst, M1, h1⟩ := processDatums_emits (fun d => d.hasInitialValue) s.mDeviceData
    { s with mDisableFlush := true, mBuffer := s.mBuffer ++ [Chunk.stamp] }
  obtain ⟨M2, h2⟩ := sendBuffer_emits
    { (processDatums (fun d => d.hasInitialValue) s.mDeviceData
         { s with mDisableFlush := true, mBuffer := s.mBuffer ++ [Chunk.stamp] }).2 with
        mDeviceData :=
          (processDatums (fun d => d.hasInitialValue) s.mDeviceData
             { s with mDisableFlush := true, mBuffer := s.mBuffer ++ [Chunk.stamp] }).1 }
  refine ⟨([] ++ M1) ++ M2, ?_⟩
  unfold Adapter.sendInitialData
  have e2 := Emits.setDevices (Emits.trans h0 h1)
    (processDatums (fun d => d.hasInitialValue) s.mDeviceData
       { s with mDisableFlush := true, mBuffer := s.mBuffer ++ [Chunk.stamp] }).1
  have e3 := Emits.trans e2 h2
  have e4 := Emits.setDisable e3 false
  simpa using e4

/-- Full sync with no own-line datum carrying a value: everything is batched
into the buffer and flushed once, in one message. -/
theorem sendInitialData_batched (s : AdapterState) (hs : s.hasServer = true)
    (hown : ∀ d ∈ s.mDeviceData, d.hasInitialValue = true → d.requiresFlush = false) :
    Adapter.sendInitialData s
      = { s with
          mDeviceData := s.mDeviceData.map
            (fun d => if d.hasInitialValue = true then { d with dirty := false } else d),
          mBuffer := [],
          mDisableFlush := false,
          sent := s.sent ++ [((s.mBuffer ++ [Chunk.stamp])
            ++ (s.mDeviceData.filter fun d => d.hasInitialValue).map DeviceDatum.chunk)
            ++ [Chunk.newline]] } := by
  unfold Adapter.sendInitialData
  rw [processDatums_no_own (fun d => d.hasInitialValue) s.mDeviceData
    { s with mDisableFlush := true, mBuffer := s.mBuffer ++ [Chunk.stamp] } hown]
  rw [sendBuffer_fire2] <;> simp [List.append_assoc, hs]

theorem Finish_of_clients {s : AdapterState} (h : 0 < s.numClients) :
    Adapter.Finish s = { Adapter.sendChangedData s with mBuffer := [] } := by
  unfold Adapter.Finish
  rw [if_pos h]

theorem Finish_of_none {s : AdapterState} (h : ¬ 0 < s.numClients) :
    Adapter.Finish s = s := by
  unfold Adapter.Finish
  rw [if_neg h]

theorem Start_clients (env : StartEnv) (s : AdapterState) (hc : 0 < env.clientsAfterRead) :
    Adapter.Start env s
      = { iterInitial env.newClients { s with hasServer := true } with
          numClients := env.clientsAfterRead,
          mBuffer := (iterInitial env.newClients { s with hasServer := true }).mBuffer
            ++ [Chunk.stamp] } := by
  unfold Adapter.Start
  rw [if_pos hc]

/-- `Finish` only ever appends to the transmission log. -/
theorem Finish_sent_extends (s : AdapterState) :
    ∃ M, (Adapter.Finish s).sent = s.sent ++ M := by
  unfold Adapter.Finish
  split
  · obtain ⟨_, ⟨M, hM⟩, _⟩ := sendChangedData_spec s
    exact ⟨M, hM.sent_eq⟩
  · exact ⟨[], by simp⟩

theorem head_append_of {l1 l2 : List Chunk} {a : Chunk} (h : l1.head? = some a) :
    (l1 ++ l2).head? = some a := by
  cases l1 <;> simp_all

/-- Diff send in which no dirty datum requires its own line: pure batching
followed by the single final flush. -/
theorem sendChangedData_no_own (s : AdapterState)
    (hown : ∀ d ∈ s.mDeviceData, d.changed = true → d.requiresFlush = false) :
    Adapter.sendChangedData s
      = Adapter.sendBuffer
          { s with
            mDeviceData := s.mDeviceData.map
              (fun d => if d.changed = true then { d with dirty := false } else d),
            mBuffer := s.mBuffer
              ++ (s.mDeviceData.filter fun d => d.changed).map DeviceDatum.chunk } := by
  unfold Adapter.sendChangedData
  rw [processDatums_no_own (fun d => d.changed) s.mDeviceData s hown]

theorem getOrCreate_some {ps : PulseState} {ch : Channel} {nm : String} {i : Nat}
    (h : ps.handles ch = some i) : ps.getOrCreate ch nm = (ps, i) := by
  unfold PulseState.getOrCreate
  rw [h]

theorem getOrCreate_none {ps : PulseState} {ch : Channel} {nm : String}
    (h : ps.handles ch = none) :
    ps.getOrCreate ch nm
      = ({ adapter := Adapter.addDatum ps.adapter (mkDatum nm),
           handles := fun ch2 => if ch2 = ch then some ps.adapter.mDeviceData.length
             else ps.handles ch2 },
         ps.adapter.mDeviceData.length) := by
  unfold PulseState.getOrCreate
  rw [h]

theorem listModify_getElem_self (f : DeviceDatum → DeviceDatum) (l : List DeviceDatum) :
    ∀ i, (listModify f i l)[i]? = (l[i]?).map f := by
  induction l with
  | nil => intro i; cases i <;> rfl
  | cons d rest ih =>
    intro i
    cases i with
    | zero => simp [listModify]
    | succ n => simpa [listModify] using ih n

/-- A name-preserving in-place update preserves every stored name. -/
theorem listModify_name (f : DeviceDatum → DeviceDatum) (hf : ∀ d, (f d).name = d.name)
    (l : List DeviceDatum) : ∀ (i j : Nat) (d0 : DeviceDatum), l[j]? = some d0 →
      ∃ d, (listModify f i l)[j]? = some d ∧ d.name = d0.name := by
  induction l with
  | nil => intro i j d0 h; simp at h
  | cons e rest ih =>
    intro i j d0 h
    cases i with
    | zero =>
      cases j with
      | zero =>
        refine ⟨f e, by simp [listModify], ?_⟩
        simp only [List.getElem?_cons_zero, Option.some.injEq] at h
        rw [hf, h]
      | succ m =>
        simp only [List.getElem?_cons_succ] at h
        exact ⟨d0, by simpa [listModify] using h, rfl⟩
    | succ n =>
      cases j with
      | zero =>
        simp only [List.getElem?_cons_zero, Option.some.injEq] at h
        exact ⟨e, by simp [listModify], by rw [h]⟩
      | succ m =>
        simp only [List.getElem?_cons_succ] at h
        obtain ⟨d, hd, hdn⟩ := ih n m d0 h
        exact ⟨d, by simpa [listModify] using hd, hdn⟩

theorem availOk_updateDatum (ps : PulseState) (i : Nat) (f : DeviceDatum → DeviceDatum)
    (hf : ∀ d, (f d).name = d.name) (h : availOk ps) :
    availOk (ps.updateDatum i f) := by
  intro j hj
  obtain ⟨d0, hd0, hn⟩ := h j hj
  obtain ⟨d, hd, hdn⟩ := listModify_name f hf ps.adapter.mDeviceData i j d0 hd0
  exact ⟨d, hd, by rw [hdn, hn]⟩

theorem availOk_getOrCreate (ps : PulseState) (ch : Channel) (nm : String)
    (hch : ¬ ch = Channel.avail) (h : availOk ps) :
    availOk (ps.getOrCreate ch nm).1 := by
  cases hh : ps.handles ch with
  | some i =>
    rw [getOrCreate_some hh]
    exact h
  | none =>
    have hne : ¬ (Channel.avail = ch) := fun he => hch he.symm
    rw [getOrCreate_none hh]
    intro j hj
    simp only [if_neg hne] at hj
    obtain ⟨d0, hd0, hn⟩ := h j hj
    refine ⟨d0, ?_, hn⟩
    have hlt : j < ps.adapter.mDeviceData.length := by
      by_contra hge
      rw [List.getElem?_eq_none (by omega)] at hd0
      cases hd0
    show (ps.adapter.mDeviceData ++ [mkDatum nm])[j]? = some d0
    rw [List.getElem?_append, if_pos hlt]
    exact hd0

/-- Asserting availability yields a registered `avail` datum reading
`AVAILABLE`, whether or not it already existed. -/
theorem available_set_ok (ps : PulseState) (h : availOk ps) :
    availSetOk (PulseAdapter.Available.set ps true) := by
  unfold PulseAdapter.Available.set
  cases hh : ps.handles Channel.avail with
  | some i =>
    rw [getOrCreate_some hh]
    obtain ⟨d0, hd0, hname⟩ := h i hh
    refine ⟨i, d0.setValue "AVAILABLE", hh, ?_, ?_, rfl, rfl⟩
    · show (listModify (fun d => d.setValue (if true then "AVAILABLE" else "UNAVAILABLE")) i
        ps.adapter.mDeviceData)[i]? = _
      rw [listModify_getElem_self, hd0]
      rfl
    · show d0.name = "avail"
      exact hname
  | none =>
    rw [getOrCreate_none hh]
    refine ⟨ps.adapter.mDeviceData.length, (mkDatum "avail").setValue "AVAILABLE",
      by simp [PulseState.updateDatum], ?_, rfl, rfl, rfl⟩
    show (listModify (fun d => d.setValue (if true then "AVAILABLE" else "UNAVAILABLE"))
        ps.adapter.mDeviceData.length (ps.adapter.mDeviceData ++ [mkDatum "avail"]))[
        ps.adapter.mDeviceData.length]? = _
    rw [listModify_getElem_self, List.getElem?_concat_length]
    rfl

/-- Every monitored-channel write ends by asserting availability. -/
theorem writeChannel_ok (ps : PulseState) (ch : Channel) (nm v : String)
    (hch : ¬ ch = Channel.avail) (h : availOk ps) :
    availSetOk (writeChannel ps ch nm v) :=
  available_set_ok _
    (availOk_updateDatum _ _ _ (fun _ => rfl) (availOk_getOrCreate ps ch nm hch h))

/-- `Finish` on a state with nothing dirty and an empty buffer is the
identity: nothing is serialized and nothing is transmitted. -/
theorem Finish_clean (s : AdapterState) (h1 : ∀ d ∈ s.mDeviceData, d.dirty = false)
    (h2 : s.mBuffer = []) : Adapter.Finish s = s := by
  have hfil : s.mDeviceData.filter (fun d => d.changed) = [] :=
    List.filter_eq_nil_iff.mpr (fun d hd => by simp [DeviceDatum.changed, h1 d hd])
  have hmap : s.mDeviceData.map
      (fun d => if d.changed = true then { d with dirty := false } else d) = s.mDeviceData := by
    have := List.map_congr_left (l := s.mDeviceData)
      (f := fun d => if d.changed = true then { d with dirty := false } else d)
      (g := fun d => d)
      (fun d hd => by simp [DeviceDatum.changed, h1 d hd])
    rw [this]
    simp
  unfold Adapter.Finish
  split
  · unfold Adapter.sendChangedData
    rw [processDatums_no_own (fun d => d.changed) s.mDeviceData s
      (fun d hd hdd => absurd hdd (by simp [DeviceDatum.changed, h1 d hd]))]
    simp only [hfil, List.map_nil, List.append_nil, hmap]
    have hsb : Adapter.sendBuffer { s with mBuffer := s.mBuffer, mDeviceData := s.mDeviceData }
        = s := by
      have : ({ s with mBuffer := s.mBuffer, mDeviceData := s.mDeviceData } : AdapterState)
          = s := rfl
      rw [this]
      exact sendBuffer_of_not (fun hc => hc.2 h2)
    rw [hsb]
    cases s
    simp at h2
    simp [h2]
  · rfl

/-!
### Claim theorems
-/

/-- C1 counterexample: with two datums carrying a value, the second of which
requires its own line, `sendInitialData` transmits two messages, not one
(the `mDisableFlush` flag set during full sync does not suspend
`sendDatum`'s own-line flushes, only the `flush()` operation), and the
client's first message does not contain the own-line datum. -/
theorem C1_counterexample :
    (Adapter.sendInitialData c1state).sent.length = 2 ∧
    ¬ (Adapter.sendInitialData c1state).sent.length = 1 ∧
    (Adapter.sendInitialData c1state).sent.head?
        = some [Chunk.stamp, DeviceDatum.chunk datumA, Chunk.newline] ∧
    DeviceDatum.chunk datumB ∉ [Chunk.stamp, DeviceDatum.chunk datumA, Chunk.newline] := by
  decide

/-- C1 (amended): for a newly accepted client the full sync stamps the
timestamp, serializes every datum with `hasValue == true` regardless of
`dirty`, in registration order, and ends with a flush; `mDisableFlush`
suspends only the datum-triggered `flush()` operation, so provided no
datum carrying a value requires its own line, the buffer is flushed
exactly once and the client's first message contains every such datum
batched into a single message, before that client receives any diff
message of the cycle. -/
theorem C1_full_sync_batched (s : AdapterState) (env : StartEnv)
    (h1 : env.newClients = 1) (hc : 0 < env.clientsAfterRead)
    (hbuf : s.mBuffer = [])
    (hown : ∀ d ∈ s.mDeviceData, d.hasInitialValue = true → d.requiresFlush = false) :
    (Adapter.Start env s).sent
        = s.sent ++ [([Chunk.stamp]
            ++ (s.mDeviceData.filter fun d => d.hasInitialValue).map DeviceDatum.chunk)
            ++ [Chunk.newline]] ∧
    ∃ M, (Adapter.Finish (Adapter.Start env s)).sent
        = s.sent ++ [([Chunk.stamp]
            ++ (s.mDeviceData.filter fun d => d.hasInitialValue).map DeviceDatum.chunk)
            ++ [Chunk.newline]] ++ M := by
  have hb := sendInitialData_batched { s with hasServer := true } rfl hown
  have hstart := Start_clients env s hc
  rw [h1] at hstart
  have hiter : iterInitial 1 { s with hasServer := true }
      = Adapter.sendInitialData { s with hasServer := true } := rfl
  rw [hiter, hb] at hstart
  have hsent1 : (Adapter.Start env s).sent
      = s.sent ++ [([Chunk.stamp]
          ++ (s.mDeviceData.filter fun d => d.hasInitialValue).map DeviceDatum.chunk)
          ++ [Chunk.newline]] := by
    rw [hstart]
    simp [hbuf]
  refine ⟨hsent1, ?_⟩
  obtain ⟨M, hM⟩ := Finish_sent_extends (Adapter.Start env s)
  exact ⟨M, by rw [hM, hsent1]⟩

/-- C1 witness: the amended theorem applied to a concrete state with one
ordinary datum carrying a value and one newly accepted client. -/
theorem C1_full_sync_batched_witness :
    (Adapter.Start wEnv1 wBatch).sent
        = wBatch.sent ++ [([Chunk.stamp]
            ++ (wBatch.mDeviceData.filter fun d => d.hasInitialValue).map DeviceDatum.chunk)
            ++ [Chunk.newline]] ∧
    ∃ M, (Adapter.Finish (Adapter.Start wEnv1 wBatch)).sent
        = wBatch.sent ++ [([Chunk.stamp]
            ++ (wBatch.mDeviceData.filter fun d => d.hasInitialValue).map DeviceDatum.chunk)
            ++ [Chunk.newline]] ++ M :=
  C1_full_sync_batched wBatch wEnv1 rfl (by decide) rfl (by decide)

/-- C2: with at least one client connected, `Finish` serializes exactly the
datums that are dirty at cycle end (clearing exactly their dirty flags,
in place), and the messages it transmits carry exactly those datums'
field groups in registration order and no others; with no client
connected, `Finish` does nothing at all and dirty state is left intact. -/
theorem C2_diff_send_exact (s : AdapterState)
    (hs : s.hasServer = true) (hbuf : fieldChunks s.mBuffer = []) :
    (0 < s.numClients →
      (Adapter.Finish s).mDeviceData
          = s.mDeviceData.map (fun d => if d.dirty = true then { d with dirty := false } else d) ∧
      ∃ M, (Adapter.Finish s).sent = s.sent ++ M ∧
        fieldChunks M.flatten = (s.mDeviceData.filter fun d => d.dirty).map DeviceDatum.chunk) ∧
    (s.numClients = 0 → Adapter.Finish s = s) := by
  constructor
  · intro hn
    obtain ⟨hdev, ⟨M, hM⟩, hemp⟩ := sendChangedData_spec s
    rw [Finish_of_clients hn]
    refine ⟨hdev, M, hM.sent_eq, ?_⟩
    have h1 := hM.content
    rw [hemp hs, hbuf] at h1
    simpa [fieldChunks] using h1
  · intro h0
    exact Finish_of_none (by omega)

/-- C2 witness: the theorem applied to a concrete one-datum dirty state with
one client connected. -/
theorem C2_diff_send_exact_witness :
    (0 < wState.numClients →
      (Adapter.Finish wState).mDeviceData
          = wState.mDeviceData.map
              (fun d => if d.dirty = true then { d with dirty := false } else d) ∧
      ∃ M, (Adapter.Finish wState).sent = wState.sent ++ M ∧
        fieldChunks M.flatten
          = (wState.mDeviceData.filter fun d => d.dirty).map DeviceDatum.chunk) ∧
    (wState.numClients = 0 → Adapter.Finish wState = wState) :=
  C2_diff_send_exact wState rfl (by decide)

/-- C3: a datum that requires its own line is flushed around by `sendDatum`,
so in every transmitted message of both the diff send and the full sync,
an own-line datum's field group is the only field group of its message —
it never shares a transmitted line with any other datum. -/
theorem C3_own_line_exclusive (s : AdapterState)
    (hs : s.hasServer = true) (hb : noOwn s.mBuffer) :
    (∃ M, (Adapter.sendChangedData s).sent = s.sent ++ M ∧
        ∀ m ∈ M, ∀ c ∈ m, isOwnField c = true → fieldChunks m = [c]) ∧
    (∃ M, (Adapter.sendInitialData s).sent = s.sent ++ M ∧
        ∀ m ∈ M, ∀ c ∈ m, isOwnField c = true → fieldChunks m = [c]) := by
  constructor
  · obtain ⟨_, ⟨M, hM⟩, _⟩ := sendChangedData_spec s
    exact ⟨M, hM.sent_eq, (hM.own hs hb).2⟩
  · obtain ⟨M, hM⟩ := sendInitialData_emits s
    exact ⟨M, hM.sent_eq, (hM.own hs hb).2⟩

/-- C3 witness: the theorem applied to a concrete state containing an
own-line datum. -/
theorem C3_own_line_exclusive_witness :
    (∃ M, (Adapter.sendChangedData wState3).sent = wState3.sent ++ M ∧
        ∀ m ∈ M, ∀ c ∈ m, isOwnField c = true → fieldChunks m = [c]) ∧
    (∃ M, (Adapter.sendInitialData wState3).sent = wState3.sent ++ M ∧
        ∀ m ∈ M, ∀ c ∈ m, isOwnField c = true → fieldChunks m = [c]) :=
  C3_own_line_exclusive wState3 rfl (by intro c hc; simp [wState3] at hc)

/-- C4 counterexample: in a diff send containing an own-line datum, the
dedicated message carrying that datum is flushed from an emptied buffer
and does not begin with the cycle timestamp — so not every transmitted
message begins with the timestamp. -/
theorem C4_counterexample :
    ∃ m ∈ (Adapter.Finish c4state).sent, m.head? ≠ some Chunk.stamp := by
  decide

/-- C4 (amended): every transmitted message ends with the line terminator;
whenever the cycle buffer begins with the timestamp and no dirty datum
requires its own line, every diff-send message begins with the cycle
timestamp followed by the field groups (likewise for a full sync started
from an empty buffer); the dedicated messages produced for own-line
datums are the exception and carry only the datum's field group. -/
theorem C4_message_framing (s : AdapterState) (hs : s.hasServer = true) :
    (∃ M, (Adapter.sendChangedData s).sent = s.sent ++ M ∧
        (∀ m ∈ M, m ≠ [] ∧ m.getLast? = some Chunk.newline) ∧
        (s.mBuffer.head? = some Chunk.stamp →
          (∀ d ∈ s.mDeviceData, d.dirty = true → d.requiresFlush = false) →
          ∀ m ∈ M, m.head? = some Chunk.stamp)) ∧
    (∃ M, (Adapter.sendInitialData s).sent = s.sent ++ M ∧
        (∀ m ∈ M, m ≠ [] ∧ m.getLast? = some Chunk.newline) ∧
        (s.mBuffer = [] →
          (∀ d ∈ s.mDeviceData, d.hasInitialValue = true → d.requiresFlush = false) →
          ∀ m ∈ M, m.head? = some Chunk.stamp)) := by
  constructor
  · obtain ⟨_, ⟨M, hM⟩, _⟩ := sendChangedData_spec s
    refine ⟨M, hM.sent_eq, hM.lines, ?_⟩
    intro hhead hown
    have hne : s.mBuffer ≠ [] := by
      intro h0
      rw [h0] at hhead
      cases hhead
    have heq := sendChangedData_no_own s
      (fun d hd hdd => hown d hd (by simpa [DeviceDatum.changed] using hdd))
    have hfireT := sendBuffer_fire2
      { s with
        mDeviceData := s.mDeviceData.map
          (fun d => if d.changed = true then { d with dirty := false } else d),
        mBuffer := s.mBuffer
          ++ (s.mDeviceData.filter fun d => d.changed).map DeviceDatum.chunk }
      hs (by simp [hne])
    have hsent : (Adapter.sendChangedData s).sent
        = s.sent ++ [(s.mBuffer
            ++ (s.mDeviceData.filter fun d => d.changed).map DeviceDatum.chunk)
            ++ [Chunk.newline]] := by
      rw [heq.trans hfireT]
    rw [hM.sent_eq] at hsent
    have hMeq : M = [(s.mBuffer
        ++ (s.mDeviceData.filter fun d => d.changed).map DeviceDatum.chunk)
        ++ [Chunk.newline]] := by
      exact List.append_cancel_left hsent
    intro m hm
    rw [hMeq] at hm
    simp only [List.mem_singleton] at hm
    subst hm
    exact head_append_of (head_append_of hhead)
  · obtain ⟨M, hM⟩ := sendInitialData_emits s
    refine ⟨M, hM.sent_eq, hM.lines, ?_⟩
    intro hbuf hown
    have heq := sendInitialData_batched s hs hown
    have hsent : (Adapter.sendInitialData s).sent
        = s.sent ++ [((s.mBuffer ++ [Chunk.stamp])
            ++ (s.mDeviceData.filter fun d => d.hasInitialValue).map DeviceDatum.chunk)
            ++ [Chunk.newline]] := by
      rw [heq]
    rw [hM.sent_eq] at hsent
    have hMeq : M = [((s.mBuffer ++ [Chunk.stamp])
        ++ (s.mDeviceData.filter fun d => d.hasInitialValue).map DeviceDatum.chunk)
        ++ [Chunk.newline]] := List.append_cancel_left hsent
    intro m hm
    rw [hMeq] at hm
    simp only [List.mem_singleton] at hm
    subst hm
    rw [hbuf]
    rfl

/-- C4 witness: the amended theorem applied to a concrete dirty state with a
stamped buffer. -/
theorem C4_message_framing_witness :
    (∃ M, (Adapter.sendChangedData wState).sent = wState.sent ++ M ∧
        (∀ m ∈ M, m ≠ [] ∧ m.getLast? = some Chunk.newline) ∧
        (wState.mBuffer.head? = some Chunk.stamp →
          (∀ d ∈ wState.mDeviceData, d.dirty = true → d.requiresFlush = false) →
          ∀ m ∈ M, m.head? = some Chunk.stamp)) ∧
    (∃ M, (Adapter.sendInitialData wState).sent = wState.sent ++ M ∧
        (∀ m ∈ M, m ≠ [] ∧ m.getLast? = some Chunk.newline) ∧
        (wState.mBuffer = [] →
          (∀ d ∈ wState.mDeviceData, d.hasInitialValue = true → d.requiresFlush = false) →
          ∀ m ∈ M, m.head? = some Chunk.stamp)) :=
  C4_message_framing wState rfl

/-- C5: evaluation of `Start` at the failing input.  The adapter ends the
previous cycle with one connected client; this cycle accepts no new
client and the read leaves zero clients — the client count transitions
from 1 to 0, yet `clientsDisconnected()` is not invoked, because the
local `hasClients` in `Adapter::Start` tracks only newly accepted
clients, not whether clients were previously connected. -/
theorem C5_hook_not_invoked :
    c5state.numClients = 1 ∧
    (Adapter.Start c5env c5state).numClients = 0 ∧
    (Adapter.Start c5env c5state).disconnectedCalls = c5state.disconnectedCalls := by
  decide

/-- C6: `unavailable()` marks every registered datum unavailable (its value
becomes the `UNAVAILABLE` sentinel and its dirty flag is set) and then
immediately runs the diff-send path via `flush()`, so every registered
datum's field group is contained in the messages transmitted by this
single call, even if nothing else changed in the cycle. -/
theorem C6_unavailable_flush (s : AdapterState)
    (hd : s.mDisableFlush = false) (hs : s.hasServer = true) :
    (∀ d ∈ (Adapter.unavailable s).mDeviceData, d.value = "UNAVAILABLE") ∧
    ∃ M, (Adapter.unavailable s).sent = s.sent ++ M ∧
      ∀ d ∈ s.mDeviceData, ∃ m ∈ M, Chunk.field d.name "UNAVAILABLE" d.requiresFlush ∈ m := by
  have hueq : Adapter.unavailable s
      = { Adapter.sendChangedData
            { s with mDeviceData := s.mDeviceData.map DeviceDatum.unavailable } with
          mBuffer := [Chunk.stamp] } := by
    unfold Adapter.unavailable Adapter.flush
    rw [if_neg (by simp [hd])]
  obtain ⟨hdev, ⟨M, hM⟩, hemp⟩ :=
    sendChangedData_spec { s with mDeviceData := s.mDeviceData.map DeviceDatum.unavailable }
  rw [hueq]
  constructor
  · intro d hd2
    have : d ∈ (Adapter.sendChangedData
        { s with mDeviceData := s.mDeviceData.map DeviceDatum.unavailable }).mDeviceData := hd2
    rw [hdev] at this
    simp only [List.map_map, List.mem_map] at this
    obtain ⟨d0, _, rfl⟩ := this
    by_cases hdirty : (DeviceDatum.unavailable d0).dirty = true <;>
      simp [hdirty, DeviceDatum.unavailable, DeviceDatum.setValue]
  · refine ⟨M, hM.sent_eq, ?_⟩
    intro d hd2
    have hall : ({ s with mDeviceData := s.mDeviceData.map DeviceDatum.unavailable }
        : AdapterState).mDeviceData.filter (fun d => d.dirty)
        = s.mDeviceData.map DeviceDatum.unavailable := by
      apply List.filter_eq_self.mpr
      intro a ha
      simp only [List.mem_map] at ha
      obtain ⟨a0, _, rfl⟩ := ha
      rfl
    have hcontent : fieldChunks M.flatten
        = fieldChunks s.mBuffer
          ++ (s.mDeviceData.map DeviceDatum.unavailable).map DeviceDatum.chunk := by
      have h0 := hM.content
      rw [hemp hs, hall] at h0
      simpa [fieldChunks] using h0
    have hmem : Chunk.field d.name "UNAVAILABLE" d.requiresFlush
        ∈ (s.mDeviceData.map DeviceDatum.unavailable).map DeviceDatum.chunk := by
      simp only [List.map_map, List.mem_map]
      exact ⟨d, hd2, rfl⟩
    have hmem2 : Chunk.field d.name "UNAVAILABLE" d.requiresFlush ∈ fieldChunks M.flatten := by
      rw [hcontent]
      exact List.mem_append.mpr (Or.inr hmem)
    have hmem3 : Chunk.field d.name "UNAVAILABLE" d.requiresFlush ∈ M.flatten :=
      List.mem_of_mem_filter hmem2
    exact List.mem_flatten.mp hmem3

/-- C6 witness: the theorem applied to a concrete one-datum state. -/
theorem C6_unavailable_flush_witness :
    (∀ d ∈ (Adapter.unavailable wState).mDeviceData, d.value = "UNAVAILABLE") ∧
    ∃ M, (Adapter.unavailable wState).sent = wState.sent ++ M ∧
      ∀ d ∈ wState.mDeviceData,
        ∃ m ∈ M, Chunk.field d.name "UNAVAILABLE" d.requiresFlush ∈ m :=
  C6_unavailable_flush wState rfl rfl

set_option maxRecDepth 40000 in
/-- C7 counterexample: the registry array has 128 slots, but because every
registration also writes a null terminator at the following index, the
128th registration — which would exactly fill the stated capacity of
128 — already fails (with the managed array's
`IndexOutOfRangeException`, not a capacity error), refuting the claim
that registration succeeds up to capacity 128 and fails only beyond
it. -/
theorem C7_counterexample :
    ¬ (registerN 128 initRegistry).2 = none ∧
    (registerN 128 initRegistry).2 = some "IndexOutOfRangeException" := by
  constructor
  · intro h
    rw [show (registerN 128 initRegistry).2 = some "IndexOutOfRangeException" from rfl] at h
    cases h
  · rfl

set_option maxRecDepth 40000 in
/-- C7 (amended): registration appends the datum at the next free index of
the 128-slot registry with no explicit capacity check; the terminating
null write makes the effective capacity 127: the first 127 registrations
succeed, and the 128th stores the datum, increments the count, and then
fails at registration time with the managed array's
`IndexOutOfRangeException` — the failure is reported as an exception at
registration time and no out-of-bounds memory write (silent corruption)
occurs, the array keeping its 128 slots. -/
theorem C7_registration_bounds :
    (registerN 127 initRegistry).2 = none ∧
    (registerN 127 initRegistry).1.num = 127 ∧
    (registerN 128 initRegistry).2 = some "IndexOutOfRangeException" ∧
    (registerN 128 initRegistry).1.num = 128 ∧
    (registerN 128 initRegistry).1.slots.size = 128 := by
  refine ⟨rfl, rfl, rfl, rfl, rfl⟩

/-- C8: every producer-facing write to a monitored channel — X, Y, Z, U, V,
W, A, B, C, Feedrate, SpindleSpeed, SpindleLoad, FeedrateOverride,
SpindleSpeedOverride, Manual, Running, ProgramName — besides updating
that channel's datum, sets the availability datum to `AVAILABLE` as a
side effect, creating and registering the `avail` datum if it does not
exist yet. -/
theorem C8_availability_cascade (ps : PulseState) (v : String) (bv : Bool)
    (h : availOk ps) :
    availSetOk (PulseAdapter.X.set ps v) ∧
    availSetOk (PulseAdapter.Y.set ps v) ∧
    availSetOk (PulseAdapter.Z.set ps v) ∧
    availSetOk (PulseAdapter.U.set ps v) ∧
    availSetOk (PulseAdapter.V.set ps v) ∧
    availSetOk (PulseAdapter.W.set ps v) ∧
    availSetOk (PulseAdapter.A.set ps v) ∧
    availSetOk (PulseAdapter.B.set ps v) ∧
    availSetOk (PulseAdapter.C.set ps v) ∧
    availSetOk (PulseAdapter.Feedrate.set ps v) ∧
    availSetOk (PulseAdapter.SpindleSpeed.set ps v) ∧
    availSetOk (PulseAdapter.SpindleLoad.set ps v) ∧
    availSetOk (PulseAdapter.FeedrateOverride.set ps v) ∧
    availSetOk (PulseAdapter.SpindleSpeedOverride.set ps v) ∧
    availSetOk (PulseAdapter.Manual.set ps bv) ∧
    availSetOk (PulseAdapter.Running.set ps bv) ∧
    availSetOk (PulseAdapter.ProgramName.set ps v) := by
  refine ⟨?_, ?_, ?_, ?_, ?_, ?_, ?_, ?_, ?_, ?_, ?_, ?_, ?_, ?_, ?_, ?_, ?_⟩ <;>
    exact writeChannel_ok ps _ _ _ (by decide) h

/-- C8 witness: the theorem applied to a fresh adapter with no datum created
yet. -/
theorem C8_availability_cascade_witness :
    availSetOk (PulseAdapter.X.set wPulse "1.5") ∧
    availSetOk (PulseAdapter.Y.set wPulse "1.5") ∧
    availSetOk (PulseAdapter.Z.set wPulse "1.5") ∧
    availSetOk (PulseAdapter.U.set wPulse "1.5") ∧
    availSetOk (PulseAdapter.V.set wPulse "1.5") ∧
    availSetOk (PulseAdapter.W.set wPulse "1.5") ∧
    availSetOk (PulseAdapter.A.set wPulse "1.5") ∧
    availSetOk (PulseAdapter.B.set wPulse "1.5") ∧
    availSetOk (PulseAdapter.C.set wPulse "1.5") ∧
    availSetOk (PulseAdapter.Feedrate.set wPulse "1.5") ∧
    availSetOk (PulseAdapter.SpindleSpeed.set wPulse "1.5") ∧
    availSetOk (PulseAdapter.SpindleLoad.set wPulse "1.5") ∧
    availSetOk (PulseAdapter.FeedrateOverride.set wPulse "1.5") ∧
    availSetOk (PulseAdapter.SpindleSpeedOverride.set wPulse "1.5") ∧
    availSetOk (PulseAdapter.Manual.set wPulse true) ∧
    availSetOk (PulseAdapter.Running.set wPulse true) ∧
    availSetOk (PulseAdapter.ProgramName.set wPulse "1.5") :=
  C8_availability_cascade wPulse "1.5" true (fun _ hi => Option.noConfusion hi)

/-- C9: with at least one client connected and a buffer holding no field
groups, the first `Finish` transmits exactly the dirty datums' field
groups, and a second `Finish` with no writes in between is a no-op: the
state (log included) is unchanged, so nothing is flushed and no bytes
are transmitted. -/
theorem C9_endCycle_idempotent (s : AdapterState)
    (hn : 0 < s.numClients) (hs : s.hasServer = true)
    (hbuf : fieldChunks s.mBuffer = []) :
    (∃ M, (Adapter.Finish s).sent = s.sent ++ M ∧
        fieldChunks M.flatten = (s.mDeviceData.filter fun d => d.dirty).map DeviceDatum.chunk) ∧
    Adapter.Finish (Adapter.Finish s) = Adapter.Finish s := by
  obtain ⟨hdev, ⟨M, hM⟩, hemp⟩ := sendChangedData_spec s
  constructor
  · rw [Finish_of_clients hn]
    refine ⟨M, hM.sent_eq, ?_⟩
    have h1 := hM.content
    rw [hemp hs, hbuf] at h1
    simpa [fieldChunks] using h1
  · apply Finish_clean
    · intro d hd2
      rw [Finish_of_clients hn] at hd2
      have : d ∈ (Adapter.sendChangedData s).mDeviceData := hd2
      rw [hdev] at this
      obtain ⟨d0, _, rfl⟩ := List.mem_map.mp this
      cases hdd : d0.dirty with
      | false => simp [hdd]
      | true => simp [hdd]
    · rw [Finish_of_clients hn]

/-- C9 witness: the theorem applied to a concrete one-datum dirty state. -/
theorem C9_endCycle_idempotent_witness :
    (∃ M, (Adapter.Finish wState).sent = wState.sent ++ M ∧
        fieldChunks M.flatten
          = (wState.mDeviceData.filter fun d => d.dirty).map DeviceDatum.chunk) ∧
    Adapter.Finish (Adapter.Finish wState) = Adapter.Finish wState :=
  C9_endCycle_idempotent wState (by decide) rfl (by decide)

/-- C10: in a cycle where at least one client is connected at `Start` and no
datum is dirty at `Finish`, the adapter still transmits one non-empty
message consisting of only the cycle timestamp (stamped by `Start`) and
the line terminator, because `Finish`'s `sendBuffer` transmits any
non-empty buffer. -/
theorem C10_timestamp_only_message (s : AdapterState) (env : StartEnv)
    (h0 : env.newClients = 0) (hc : 0 < env.clientsAfterRead)
    (hbuf : s.mBuffer = []) (hclean : ∀ d ∈ s.mDeviceData, d.dirty = false) :
    (Adapter.Finish (Adapter.Start env s)).sent = s.sent ++ [[Chunk.stamp, Chunk.newline]] ∧
    ([Chunk.stamp, Chunk.newline] : List Chunk) ≠ [] := by
  have hstart := Start_clients env s hc
  rw [h0] at hstart
  have hfil : s.mDeviceData.filter (fun d => d.changed) = [] :=
    List.filter_eq_nil_iff.mpr (fun d hd => by simp [DeviceDatum.changed, hclean d hd])
  refine ⟨?_, by decide⟩
  rw [hstart]
  rw [Finish_of_clients hc]
  rw [sendChangedData_no_own _ (by
    intro d hd2 hdd
    refine absurd hdd ?_
    have hd3 : d ∈ s.mDeviceData := hd2
    simp [DeviceDatum.changed, hclean d hd3])]
  rw [sendBuffer_fire2]
  · simp [iterInitial, hbuf, hfil]
  · rfl
  · simp [iterInitial, hbuf]

/-- C10 witness: the theorem applied to a concrete clean state, with one
client connected throughout the cycle. -/
theorem C10_timestamp_only_message_witness :
    (Adapter.Finish (Adapter.Start wEnv wClean)).sent
        = wClean.sent ++ [[Chunk.stamp, Chunk.newline]] ∧
    ([Chunk.stamp, Chunk.newline] : List Chunk) ≠ [] :=
  C10_timestamp_only_message wClean wEnv rfl (by decide) rfl (by decide)
